import Mathlib

/-!
# The L1 → L2 ETH deposit script `L2/optimism/remote/bridge/index.js`

A shallow embedding of the script.  Every call that leaves the script (the file system, the
`ethers` and `@eth-optimism/sdk` libraries, the clock, `console.log`, `process.exit`) is recorded
as an `Event` in a chronological trace; what each such call answers is read from an `Env`.
A promise handed to `await` has one of three fates (`Outcome`): it resolves, it rejects, or it
never settles; a promise that never settles may or may not keep the process alive.  The script
itself is written in the state monad `M`, whose results distinguish a normal return, a thrown
exception (or rejected promise), a call of `process.exit` and a wait that never ends.
-/

namespace Bridge

/-! ## JavaScript strings -/

/-- The code points that `String.prototype.trim` removes and that `BigInt(string)` skips:
ECMAScript `WhiteSpace` (TAB, VT, FF, SP, NBSP, ZWNBSP and the Unicode space separators)
and `LineTerminator` (LF, CR, LS, PS). -/
def isWhiteSpace (c : Char) : Bool :=
  let n := c.toNat
  n == 0x09 || n == 0x0A || n == 0x0B || n == 0x0C || n == 0x0D || n == 0x20 || n == 0xA0 ||
  n == 0x1680 || (0x2000 ≤ n && n ≤ 0x200A) || n == 0x2028 || n == 0x2029 || n == 0x202F ||
  n == 0x205F || n == 0x3000 || n == 0xFEFF

/-- `trim` on the characters of a string: leading and trailing white space removed. -/
def trimChars (cs : List Char) : List Char :=
  ((cs.dropWhile isWhiteSpace).reverse.dropWhile isWhiteSpace).reverse

/-- `String.prototype.trim`. -/
def trim (s : String) : String := String.mk (trimChars s.data)

/-- Resolution of a relative index of `slice` against a string of length `len`:
a negative index counts from the end, and the result is clamped to `[0, len]`. -/
def sliceIndex (len : Nat) (i : Int) : Nat :=
  if i < 0 then (((len : Int) + i).toNat) else min i.toNat len

/-- `String.prototype.slice(start, end)`. -/
def slice (s : String) (start stop : Int) : String :=
  let len := s.data.length
  let a := sliceIndex len start
  let b := sliceIndex len stop
  String.mk ((s.data.drop a).take (b - a))

/-- `'0x'.padEnd(42, '0')`: the string padded on the right with the fill character up to the
target length. -/
def padEnd (s : String) (target : Nat) (fill : Char) : String :=
  String.mk (s.data ++ List.replicate (target - s.data.length) fill)

/-- JavaScript `a || b` on a possibly undefined string: `undefined` and `''` are falsy. -/
def orElse (a : Option String) (b : String) : String :=
  match a with
  | none => b
  | some s => if s = "" then b else s

/-! ## `BigInt(string)` -/

/-- The value of a character as a digit of the given base, if it is one. -/
def digitValue (base : Nat) (c : Char) : Option Nat :=
  let v : Option Nat :=
    if '0' ≤ c ∧ c ≤ '9' then some (c.toNat - '0'.toNat)
    else if 'a' ≤ c ∧ c ≤ 'f' then some (c.toNat - 'a'.toNat + 10)
    else if 'A' ≤ c ∧ c ≤ 'F' then some (c.toNat - 'A'.toNat + 10)
    else none
  match v with
  | some d => if d < base then some d else none
  | none => none

/-- The number denoted by digits already read (`acc`) followed by `cs`; `none` when some
character is not a digit of the base. -/
def readDigits (base : Nat) (acc : Nat) : List Char → Option Nat
  | [] => some acc
  | c :: cs =>
    match digitValue base c with
    | some d => readDigits base (acc * base + d) cs
    | none => none

/-- A non-empty run of digits of the base. -/
def digitsValue (base : Nat) (cs : List Char) : Option Nat :=
  match cs with
  | [] => none
  | _ => readDigits base 0 cs

/-- The radix announced by the letter of a `0x`, `0o` or `0b` mark. -/
def radixOf (c : Char) : Option Nat :=
  if c = 'x' ∨ c = 'X' then some 16
  else if c = 'o' ∨ c = 'O' then some 8
  else if c = 'b' ∨ c = 'B' then some 2
  else none

/-- ECMAScript `StringToBigInt`: white space is trimmed; the empty string is `0n`; otherwise the
text is a decimal numeral with an optional sign, or an unsigned `0x`, `0o` or `0b` numeral. -/
def StringToBigInt (s : String) : Option Int :=
  match trimChars s.data with
  | [] => some 0
  | c :: ds =>
    if c = '+' then (digitsValue 10 ds).map Int.ofNat
    else if c = '-' then (digitsValue 10 ds).map (fun n => - Int.ofNat n)
    else
      match (if c = '0' then ds.head?.bind radixOf else none) with
      | some radix => (digitsValue radix ds.tail).map Int.ofNat
      | none => (digitsValue 10 (c :: ds)).map Int.ofNat

/-- An error value: a thrown exception or the reason of a rejected promise. -/
abbrev Err := String

/-- `BigInt(string)`: the integer, or a thrown `SyntaxError`. -/
def BigInt (s : String) : Except Err Int :=
  match StringToBigInt s with
  | some n => .ok n
  | none => .error ("SyntaxError: Cannot convert " ++ s ++ " to a BigInt")

/-! ## Values handed to the libraries -/

/-- An `ethers.Wallet`: a private key bound to the JSON-RPC provider of a URL. -/
structure Wallet where
  privateKey : String
  url : String
deriving DecidableEq, Repr

/-- The bridge adapter classes named in `bridges`. -/
inductive Adapter where
  | StandardBridgeAdapter
  | ETHBridgeAdapter
deriving DecidableEq, Repr

/-- The object `contracts.l1`. -/
structure L1Contracts where
  StateCommitmentChain : String
  CanonicalTransactionChain : String
  BondManager : String
  AddressManager : String
  L1CrossDomainMessenger : String
  L1StandardBridge : String
  OptimismPortal : String
  L2OutputOracle : String
deriving DecidableEq, Repr

/-- One entry of `bridges`. -/
structure BridgeEntry where
  l1Bridge : String
  l2Bridge : String
  Adapter : Adapter
deriving DecidableEq, Repr

/-- The object `bridges`. -/
structure Bridges where
  Standard : BridgeEntry
  ETH : BridgeEntry
deriving DecidableEq, Repr

/-- The argument of `new optimismSDK.CrossChainMessenger(...)`. -/
structure MessengerOptions where
  l1ChainId : Nat
  l2ChainId : Nat
  l1SignerOrProvider : Wallet
  l2SignerOrProvider : Wallet
  bedrock : Bool
  contracts : L1Contracts
  bridges : Bridges
deriving DecidableEq, Repr

/-- The enumeration `optimismSDK.MessageStatus`; the script names its last member. -/
inductive MessageStatus where
  | UNCONFIRMED_L1_TO_L2_MESSAGE
  | FAILED_L1_TO_L2_MESSAGE
  | STATE_ROOT_NOT_PUBLISHED
  | READY_TO_PROVE
  | IN_CHALLENGE_PERIOD
  | READY_FOR_RELAY
  | RELAYED
deriving DecidableEq, Repr

/-- The optional third argument of `waitForMessageStatus`, through which a caller bounds the
wait. -/
structure WaitOptions where
  pollIntervalMs : Option Nat
  timeoutMs : Option Nat
deriving DecidableEq, Repr

/-- The two ledgers. -/
inductive Layer where
  | l1
  | l2
deriving DecidableEq, Repr

/-! ## Observable behaviour -/

/-- The lines the script writes with `console.log`, one constructor per call site. -/
inductive Log where
  /-- `'Usage: node index.js <privateKey> [amount of ETH] [l1Url] [l2Url]'` -/
  | usage
  /-- `Could not read $filename: $err` -/
  | couldNotRead (filename : String) (err : Err)
  /-- `'Deposit ETH'` -/
  | depositETH
  /-- `On L1:$l1Balance Gwei    On L2:$l2Balance Gwei` -/
  | balances (l1Balance l2Balance : String)
  /-- `Transaction hash (on L1): $hash` -/
  | transactionHash (hash : String)
  /-- `"Waiting for status to change to RELAYED"` -/
  | waiting
  /-- `Time so far $t seconds`, where `t` is the given number of milliseconds over 1000. -/
  | timeSoFar (ms : Int)
  /-- `depositETH took $t seconds`, where `t` is the given number of milliseconds over 1000. -/
  | took (ms : Int)
  /-- `'Done'` -/
  | done
  /-- `'Error', err` -/
  | error (err : Err)
deriving DecidableEq, Repr

/-- Everything the script does that is visible outside it, in the order it happens. -/
inductive Event where
  /-- `console.log(...)` -/
  | log (line : Log)
  /-- `fs.readFileSync(filename, 'utf8')` -/
  | readFileSync (filename : String)
  /-- `new ethers.providers.JsonRpcProvider(url)` -/
  | newJsonRpcProvider (url : String)
  /-- `new ethers.Wallet(privateKey, provider)` -/
  | newWallet (w : Wallet)
  /-- `new optimismSDK.CrossChainMessenger(options)` -/
  | newCrossChainMessenger (options : MessengerOptions)
  /-- `crossChainMessenger.l1Signer.getBalance()` or `crossChainMessenger.l2Signer.getBalance()`:
  the `k`-th such call on the layer, `k` counted from 0. -/
  | getBalance (layer : Layer) (k : Nat)
  /-- `new Date()` -/
  | newDate
  /-- `crossChainMessenger.depositETH(value)` -/
  | depositETH (value : Int)
  /-- `response.wait()` on the response carrying this hash -/
  | wait (hash : String)
  /-- `crossChainMessenger.waitForMessageStatus(hash, status, opts)`, with `opts` absent when
  the call has two arguments only. -/
  | waitForMessageStatus (hash : String) (status : MessageStatus) (opts : Option WaitOptions)
  /-- The report of an uncaught exception that the runtime writes to the error stream. -/
  | uncaught (err : Err)
deriving DecidableEq, Repr

/-- The fate of a promise under `await`. -/
inductive Outcome (α : Type) where
  | resolved (a : α)
  | rejected (e : Err)
  /-- The promise never settles; `keepsAlive` tells whether a timer or socket behind it keeps the
  event loop of the process alive. -/
  | pending (keepsAlive : Bool)

/-- What the world outside the script answers. -/
structure Env where
  /-- `process.argv`: the interpreter, the script, then the arguments. -/
  argv : List String
  /-- `fs.readFileSync(filename, 'utf8')`: the content, or the exception thrown. -/
  readFileSync : String → Except Err String
  /-- `new ethers.providers.JsonRpcProvider(url)` may throw. -/
  JsonRpcProvider : String → Except Err Unit
  /-- `new ethers.Wallet(privateKey, provider)` may throw. -/
  Wallet : Wallet → Except Err Unit
  /-- `new optimismSDK.CrossChainMessenger(options)` may throw. -/
  CrossChainMessenger : MessengerOptions → Except Err Unit
  /-- The balance in wei answered to the `k`-th `getBalance()` on a layer, `k` counted from 0. -/
  getBalance : Layer → Nat → Outcome Nat
  /-- The time in milliseconds of the `k`-th `new Date()`, `k` counted from 0. -/
  now : Nat → Int
  /-- `crossChainMessenger.depositETH(value)`: the hash of the response. -/
  depositETH : Int → Outcome String
  /-- `response.wait()`. -/
  wait : String → Outcome Unit
  /-- `crossChainMessenger.waitForMessageStatus(hash, status, opts)`. -/
  waitForMessageStatus : String → MessageStatus → Option WaitOptions → Outcome Unit

/-- The mutable state: the trace so far, the module variable `crossChainMessenger`, and how many
balance reads and clock reads have happened. -/
structure St where
  trace : List Event
  crossChainMessenger : Option MessengerOptions
  l1Reads : Nat
  l2Reads : Nat
  dates : Nat

/-- The state in which the script starts. -/
def St.init : St :=
  { trace := [], crossChainMessenger := none, l1Reads := 0, l2Reads := 0, dates := 0 }

/-- How a piece of the script ends. -/
inductive Res (α : Type) where
  /-- It returned (an awaited promise was fulfilled). -/
  | ok (a : α)
  /-- It threw (an awaited promise was rejected). -/
  | throw (e : Err)
  /-- It called `process.exit(code)`. -/
  | exit (code : Nat)
  /-- It awaits a promise that never settles, which keeps the process alive or not. -/
  | hang (keepsAlive : Bool)

/-- Script code: a state transformer with a result. -/
def M (α : Type) : Type := St → St × Res α

/-- Sequencing: only a normal return continues. -/
def M.bind {α β : Type} (m : M α) (f : α → M β) : M β := fun s =>
  match m s with
  | (s1, .ok a) => f a s1
  | (s1, .throw e) => (s1, .throw e)
  | (s1, .exit c) => (s1, .exit c)
  | (s1, .hang b) => (s1, .hang b)

instance : Monad M where
  pure a := fun s => (s, .ok a)
  bind := M.bind

/-- Record an event. -/
def emit (e : Event) : M Unit := fun s => ({ s with trace := s.trace ++ [e] }, .ok ())

/-- `console.log(...)`. -/
def consoleLog (line : Log) : M Unit := emit (.log line)

/-- `process.exit(code)`. -/
def processExit {α : Type} (code : Nat) : M α := fun s => (s, .exit code)

/-- A synchronous library call that returns or throws. -/
def call {α : Type} (r : Except Err α) : M α := fun s =>
  match r with
  | .ok a => (s, .ok a)
  | .error e => (s, .throw e)

/-- `await promise`. -/
def await {α : Type} (o : Outcome α) : M α := fun s =>
  match o with
  | .resolved a => (s, .ok a)
  | .rejected e => (s, .throw e)
  | .pending b => (s, .hang b)

/-- `try ... catch (err) ...`. -/
def tryCatch {α : Type} (body : M α) (handler : Err → M α) : M α := fun s =>
  match body s with
  | (s1, .throw e) => handler e s1
  | r => r

/-- `promise.then(onFulfilled).catch(onRejected)`. -/
def thenCatch {α β : Type} (promise : M α) (onFulfilled : α → M β)
    (onRejected : Err → M β) : M β :=
  tryCatch (M.bind promise onFulfilled) onRejected

/-! ## The script -/

/-- `const zeroAddr = '0x'.padEnd(42, '0')`. -/
def zeroAddr : String := padEnd "0x" 42 '0'

/-- `const path = 'L2/optimism/remote/bridge/'`. -/
def path : String := "L2/optimism/remote/bridge/"

/-- `const gwei = BigInt(1e9)`. -/
def gwei : Int := 1000000000

/-- `const eth = gwei * gwei`. -/
def eth : Int := gwei * gwei

/-- JavaScript `!a` on a possibly undefined string. -/
def falsy (a : Option String) : Bool :=
  match a with
  | none => true
  | some s => s == ""

/-- `readAddressFromFile`: the trimmed content of the file; when reading throws, a line is
logged and the process exits with status 1. -/
def readAddressFromFile (env : Env) (filename : String) : M String :=
  tryCatch
    (do
      emit (.readFileSync filename)
      let content ← call (env.readFileSync filename)
      pure (trim content))
    (fun err => do
      consoleLog (.couldNotRead filename err)
      processExit 1)

/-- The constants the module body defines before `main()` is called. -/
structure Module where
  privateKey : String
  ethAmount : Int
  l1Url : String
  l2Url : String
  contracts : L1Contracts
  bridges : Bridges

/-- `const contracts = ...`, `contracts.l1`, from the five addresses read from the files. -/
def contracts (addressManager l1CrossDomainMessenger l1StandardBridge optimismPortal
    l2OutputOracle : String) : L1Contracts :=
  { StateCommitmentChain := zeroAddr
    CanonicalTransactionChain := zeroAddr
    BondManager := zeroAddr
    AddressManager := addressManager
    L1CrossDomainMessenger := l1CrossDomainMessenger
    L1StandardBridge := l1StandardBridge
    OptimismPortal := optimismPortal
    L2OutputOracle := l2OutputOracle }

/-- `const bridges = ...`. -/
def bridges (contracts : L1Contracts) : Bridges :=
  { Standard :=
      { l1Bridge := contracts.L1StandardBridge
        l2Bridge := "0x4200000000000000000000000000000000000010"
        Adapter := .StandardBridgeAdapter }
    ETH :=
      { l1Bridge := contracts.L1StandardBridge
        l2Bridge := "0x4200000000000000000000000000000000000010"
        Adapter := .ETHBridgeAdapter } }

/-- The module body, lines 5 to 51: the arguments, then the address files. -/
def loadModule (env : Env) : M Module := do
  let privateKey := env.argv[2]?
  if falsy privateKey then
    consoleLog .usage
    processExit 1
  let ethAmount ← call (BigInt (orElse env.argv[3]? "1"))
  let l1Url := orElse env.argv[4]? "http://localhost:8545"
  let l2Url := orElse env.argv[5]? "http://localhost:8547"
  let addressManager ← readAddressFromFile env (path ++ "AddressManager_address")
  let l1CrossDomainMessenger ←
    readAddressFromFile env (path ++ "L1CrossDomainMessengerProxy_address")
  let l1StandardBridge ← readAddressFromFile env (path ++ "L1StandardBridgeProxy_address")
  let optimismPortal ← readAddressFromFile env (path ++ "OptimismPortal_address")
  let l2OutputOracle ← readAddressFromFile env (path ++ "L2OutputOracleProxy_address")
  let contracts : L1Contracts :=
    contracts addressManager l1CrossDomainMessenger l1StandardBridge optimismPortal
      l2OutputOracle
  pure
    { privateKey := privateKey.getD ""
      ethAmount := ethAmount
      l1Url := l1Url
      l2Url := l2Url
      contracts := contracts
      bridges := bridges contracts }

/-- `getSigners`: two providers, then two wallets on the same private key. -/
def getSigners (env : Env) (m : Module) : M (Wallet × Wallet) := do
  emit (.newJsonRpcProvider m.l1Url)
  call (env.JsonRpcProvider m.l1Url)
  emit (.newJsonRpcProvider m.l2Url)
  call (env.JsonRpcProvider m.l2Url)
  let l1Wallet : Wallet := { privateKey := m.privateKey, url := m.l1Url }
  emit (.newWallet l1Wallet)
  call (env.Wallet l1Wallet)
  let l2Wallet : Wallet := { privateKey := m.privateKey, url := m.l2Url }
  emit (.newWallet l2Wallet)
  call (env.Wallet l2Wallet)
  pure (l1Wallet, l2Wallet)

/-- The assignment `crossChainMessenger = ...`. -/
def setMessenger (options : MessengerOptions) : M Unit := fun s =>
  ({ s with crossChainMessenger := some options }, .ok ())

/-- The argument that `setup` hands to `new optimismSDK.CrossChainMessenger(...)`. -/
def messengerOptions (m : Module) (l1Signer l2Signer : Wallet) : MessengerOptions :=
  { l1ChainId := 2023
    l2ChainId := 2320
    l1SignerOrProvider := l1Signer
    l2SignerOrProvider := l2Signer
    bedrock := true
    contracts := m.contracts
    bridges := m.bridges }

/-- `setup`: builds the messenger and stores it in the module variable. -/
def setup (env : Env) (m : Module) : M Unit := do
  let (l1Signer, l2Signer) ← getSigners env m
  let options : MessengerOptions := messengerOptions m l1Signer l2Signer
  emit (.newCrossChainMessenger options)
  call (env.CrossChainMessenger options)
  setMessenger options

/-- Reading a member of the module variable `crossChainMessenger`, which throws a `TypeError`
while the variable is still undefined. -/
def messenger : M MessengerOptions := fun s =>
  match s.crossChainMessenger with
  | some options => (s, .ok options)
  | none => (s, .throw "TypeError: Cannot read properties of undefined")

/-- Issuing a `getBalance()` request on a layer: the request is recorded and its number on that
layer, counted from 0, is returned. -/
def balanceRead (layer : Layer) : M Nat := fun s =>
  match layer with
  | .l1 =>
    ({ s with trace := s.trace ++ [.getBalance .l1 s.l1Reads], l1Reads := s.l1Reads + 1 },
      .ok s.l1Reads)
  | .l2 =>
    ({ s with trace := s.trace ++ [.getBalance .l2 s.l2Reads], l2Reads := s.l2Reads + 1 },
      .ok s.l2Reads)

/-- `await crossChainMessenger.l1Signer.getBalance()` (or `l2Signer`). -/
def getBalance (env : Env) (layer : Layer) : M Nat := do
  let _ ← messenger
  let k ← balanceRead layer
  await (env.getBalance layer k)

/-- The figure printed in front of `Gwei`: `balance.toString().slice(0, -9)`. -/
def gweiFigure (balance : Nat) : String := slice (Nat.repr balance) 0 (-9)

/-- `reportBalances`. -/
def reportBalances (env : Env) : M Unit := do
  let l1Balance := gweiFigure (← getBalance env .l1)
  let l2Balance := gweiFigure (← getBalance env .l2)
  consoleLog (.balances l1Balance l2Balance)

/-- `new Date()`, as milliseconds. -/
def newDate (env : Env) : M Int := fun s =>
  ({ s with trace := s.trace ++ [.newDate], dates := s.dates + 1 }, .ok (env.now s.dates))

/-- `depositETH`. -/
def depositETH (env : Env) (m : Module) : M Unit := do
  consoleLog .depositETH
  reportBalances env
  let start ← newDate env
  let _ ← messenger
  emit (.depositETH (m.ethAmount * eth))
  let hash ← await (env.depositETH (m.ethAmount * eth))
  consoleLog (.transactionHash hash)
  emit (.wait hash)
  await (env.wait hash)
  consoleLog .waiting
  consoleLog (.timeSoFar ((← newDate env) - start))
  let _ ← messenger
  emit (.waitForMessageStatus hash .RELAYED none)
  await (env.waitForMessageStatus hash .RELAYED none)
  reportBalances env
  consoleLog (.took ((← newDate env) - start))

/-- `main`. -/
def main (env : Env) (m : Module) : M Unit := do
  setup env m
  depositETH env m

/-- The whole script: the module body, then `main().then(...).catch(...)`. -/
def script (env : Env) : M Unit := do
  let m ← loadModule env
  thenCatch (main env m)
    (fun _ => do
      consoleLog .done
      processExit 0)
    (fun err => do
      consoleLog (.error err)
      processExit 1)

/-- A run of the process: what it did, and the exit status if it ever exits. -/
structure Run where
  trace : List Event
  exit : Option Nat

/-- Running the script under the runtime: `process.exit(code)` ends the process with that status;
an exception nobody catches is reported and ends it with status 1; a script that runs to its end
with nothing left to wait for ends with status 0.  A wait that never ends leaves the process
running as long as something keeps its event loop alive; when nothing does, the process ends with
status 0, the code after the `await` never having run. -/
def run (env : Env) : Run :=
  match script env St.init with
  | (s, .exit code) => { trace := s.trace, exit := some code }
  | (s, .throw e) => { trace := s.trace ++ [.uncaught e], exit := some 1 }
  | (s, .ok _) => { trace := s.trace, exit := some 0 }
  | (s, .hang true) => { trace := s.trace, exit := none }
  | (s, .hang false) => { trace := s.trace, exit := some 0 }

/-! ## Vocabulary of the properties -/

/-- The deposit submission `crossChainMessenger.depositETH(...)`. -/
def isSubmission : Event → Bool
  | .depositETH _ => true
  | _ => false

/-- The source confirmation wait `response.wait()`. -/
def isSourceWait : Event → Bool
  | .wait _ => true
  | _ => false

/-- The relay-status wait `crossChainMessenger.waitForMessageStatus(...)`. -/
def isRelayWait : Event → Bool
  | .waitForMessageStatus _ _ _ => true
  | _ => false

/-- The balance line that `reportBalances` prints. -/
def isBalanceLine : Event → Bool
  | .log (.balances _ _) => true
  | _ => false

/-- The events of the module body and of `setup`. -/
def isSetupEvent : Event → Bool
  | .readFileSync _ => true
  | .newJsonRpcProvider _ => true
  | .newWallet _ => true
  | .newCrossChainMessenger _ => true
  | _ => false

/-- The lines that report an error: the `Error` line of the final `catch`, the `Could not read`
line of `readAddressFromFile`, and the report of an uncaught exception. -/
def isErrorReport : Event → Bool
  | .log (.error _) => true
  | .log (.couldNotRead _ _) => true
  | .uncaught _ => true
  | _ => false

/-- The events that follow the first event satisfying `p`. -/
def eventsAfter (p : Event → Bool) (tr : List Event) : List Event :=
  (tr.dropWhile (fun e => !p e)).tail

/-- An environment in which every call succeeds: key `0xabc`, amount `3`, every address file
holding an address followed by a newline. -/
def sampleEnv : Env :=
  { argv := ["node", "index.js", "0xabc", "3"]
    readFileSync := fun _ => .ok "0x5FbDB2315678afecb367f032d93F642f64180aa3\n"
    JsonRpcProvider := fun _ => .ok ()
    Wallet := fun _ => .ok ()
    CrossChainMessenger := fun _ => .ok ()
    getBalance := fun layer k =>
      match layer with
      | .l1 => .resolved (9000000000000000000 - 3000000000000000123 * k)
      | .l2 => .resolved (3000000000000000000 * k)
    now := fun k => 1700000000000 + 2500 * k
    depositETH := fun _ => .resolved "0xhash"
    wait := fun _ => .resolved ()
    waitForMessageStatus := fun _ _ _ => .resolved () }

/-- The configured bridge contract address, the trimmed content of the `L1StandardBridge`
address file, is the zero address. -/
def bridgeIsZero (env : Env) : Prop :=
  ∃ content, env.readFileSync (path ++ "L1StandardBridgeProxy_address") = .ok content
    ∧ trim content = zeroAddr

/-- As `sampleEnv`, but the address file of the bridge holds the zero address, and the relay
wait is rejected. -/
def zeroBridgeEnv : Env :=
  { sampleEnv with
    readFileSync := fun filename =>
      if filename = path ++ "L1StandardBridgeProxy_address"
      then .ok "0x0000000000000000000000000000000000000000\n"
      else .ok "0x5FbDB2315678afecb367f032d93F642f64180aa3\n"
    waitForMessageStatus := fun _ _ _ => .rejected "could not find SentMessage event" }

/-- As `sampleEnv`, but the bridge client rejects the submission. -/
def rejectingEnv : Env :=
  { sampleEnv with depositETH := fun _ => .rejected "insufficient funds" }

/-- As `sampleEnv`, but the message never reaches RELAYED: the relay wait never settles, and its
polling keeps the process alive. -/
def stuckEnv : Env :=
  { sampleEnv with waitForMessageStatus := fun _ _ _ => .pending true }

/-- As `stuckEnv`, but nothing behind the relay wait keeps the process alive. -/
def idleEnv : Env :=
  { sampleEnv with waitForMessageStatus := fun _ _ _ => .pending false }

/-- As `sampleEnv`, but `response.wait()` never settles and keeps nothing alive. -/
def silentEnv : Env :=
  { sampleEnv with wait := fun _ => .pending false }

/-- The module body runs to its end and defines the constants `m`: the credential is present,
the amount is read by `BigInt`, and the five address files are read. -/
def moduleLoads (env : Env) (m : Module) : Prop :=
  ∃ key n a1 a2 a3 a4 a5,
    env.argv[2]? = some key ∧ key ≠ ""
    ∧ BigInt (orElse env.argv[3]? "1") = .ok n
    ∧ env.readFileSync (path ++ "AddressManager_address") = .ok a1
    ∧ env.readFileSync (path ++ "L1CrossDomainMessengerProxy_address") = .ok a2
    ∧ env.readFileSync (path ++ "L1StandardBridgeProxy_address") = .ok a3
    ∧ env.readFileSync (path ++ "OptimismPortal_address") = .ok a4
    ∧ env.readFileSync (path ++ "L2OutputOracleProxy_address") = .ok a5
    ∧ m = { privateKey := key
            ethAmount := n
            l1Url := orElse env.argv[4]? "http://localhost:8545"
            l2Url := orElse env.argv[5]? "http://localhost:8547"
            contracts := contracts (trim a1) (trim a2) (trim a3) (trim a4) (trim a5)
            bridges := bridges (contracts (trim a1) (trim a2) (trim a3) (trim a4) (trim a5)) }

/-- Every call of `setup` succeeds: the two providers, the two wallets, the messenger. -/
def setupSucceeds (env : Env) (m : Module) : Prop :=
  env.JsonRpcProvider m.l1Url = .ok ()
  ∧ env.JsonRpcProvider m.l2Url = .ok ()
  ∧ env.Wallet { privateKey := m.privateKey, url := m.l1Url } = .ok ()
  ∧ env.Wallet { privateKey := m.privateKey, url := m.l2Url } = .ok ()
  ∧ env.CrossChainMessenger
      (messengerOptions m { privateKey := m.privateKey, url := m.l1Url }
        { privateKey := m.privateKey, url := m.l2Url }) = .ok ()

/-- Every step of `depositETH` succeeds: the four balance reads of the two reports, the
submission, the source confirmation, and the wait for RELAYED. -/
def depositSucceeds (env : Env) (m : Module) : Prop :=
  ∃ b1 b2 b3 b4 hash,
    env.getBalance .l1 0 = .resolved b1 ∧ env.getBalance .l2 0 = .resolved b2
    ∧ env.depositETH (m.ethAmount * eth) = .resolved hash
    ∧ env.wait hash = .resolved ()
    ∧ env.waitForMessageStatus hash .RELAYED none = .resolved ()
    ∧ env.getBalance .l1 1 = .resolved b3 ∧ env.getBalance .l2 1 = .resolved b4

/-- The function `main` is reached and completes: `setup`, both balance reports, the submission,
the source confirmation and the wait for RELAYED all succeed. -/
def mainCompletes (env : Env) : Prop :=
  ∃ m, moduleLoads env m ∧ setupSucceeds env m ∧ depositSucceeds env m

/-- The event is a call of `main` that was answered with the failure `e`: a constructor that
threw or an awaited promise that was rejected. -/
def failedAt (env : Env) (e : Err) : Event → Prop
  | .newJsonRpcProvider url => env.JsonRpcProvider url = .error e
  | .newWallet w => env.Wallet w = .error e
  | .newCrossChainMessenger options => env.CrossChainMessenger options = .error e
  | .getBalance layer k => env.getBalance layer k = .rejected e
  | .depositETH v => env.depositETH v = .rejected e
  | .wait hash => env.wait hash = .rejected e
  | .waitForMessageStatus hash status opts =>
    env.waitForMessageStatus hash status opts = .rejected e
  | _ => False

/-- The event is an awaited call whose promise never settles, keeping the process alive or not
as `keepsAlive` says. -/
def stalledAt (env : Env) (keepsAlive : Bool) : Event → Prop
  | .getBalance layer k => env.getBalance layer k = .pending keepsAlive
  | .depositETH v => env.depositETH v = .pending keepsAlive
  | .wait hash => env.wait hash = .pending keepsAlive
  | .waitForMessageStatus hash status opts =>
    env.waitForMessageStatus hash status opts = .pending keepsAlive
  | _ => False

/-- The events of the module body and of `setup` in a run that reaches `depositETH`. -/
def setupTrace (m : Module) : List Event :=
  [.readFileSync (path ++ "AddressManager_address"),
    .readFileSync (path ++ "L1CrossDomainMessengerProxy_address"),
    .readFileSync (path ++ "L1StandardBridgeProxy_address"),
    .readFileSync (path ++ "OptimismPortal_address"),
    .readFileSync (path ++ "L2OutputOracleProxy_address"),
    .newJsonRpcProvider m.l1Url,
    .newJsonRpcProvider m.l2Url,
    .newWallet { privateKey := m.privateKey, url := m.l1Url },
    .newWallet { privateKey := m.privateKey, url := m.l2Url },
    .newCrossChainMessenger
      (messengerOptions m { privateKey := m.privateKey, url := m.l1Url }
        { privateKey := m.privateKey, url := m.l2Url })]

/-- Every character of the list is white space. -/
def allWhiteSpace (cs : List Char) : Prop := ∀ c ∈ cs, isWhiteSpace c = true

/-- The decimal digits of a number, most significant first: what `Nat.repr` prints. -/
def digitsOf (n : Nat) : List Char :=
  if n < 10 then [Nat.digitChar n] else digitsOf (n / 10) ++ [Nat.digitChar (n % 10)]
decreasing_by omega

/-! ## Reasoning about script code

`handleK m kOk kThrow kExit kHang s` runs `m` from `s` and hands the end of the run to the
continuation of its kind.  Rewriting with the rules below turns straight-line script code into a
tree of case distinctions on the answers of the environment. -/

/-- The result of a piece of script code, consumed by one continuation per way of ending. -/
def handleK {α γ : Type} (m : M α) (kOk : α → St → γ) (kThrow : Err → St → γ)
    (kExit : Nat → St → γ) (kHang : Bool → St → γ) (s : St) : γ :=
  match m s with
  | (s1, .ok a) => kOk a s1
  | (s1, .throw e) => kThrow e s1
  | (s1, .exit c) => kExit c s1
  | (s1, .hang b) => kHang b s1

section Calculus

variable {α β γ : Type} (kOk : α → St → γ) (kThrow : Err → St → γ)
    (kExit : Nat → St → γ) (kHang : Bool → St → γ) (s : St)

theorem handleK_bind (m : M β) (f : β → M α) :
    handleK (m >>= f) kOk kThrow kExit kHang s =
      handleK m (fun b => handleK (f b) kOk kThrow kExit kHang) kThrow kExit kHang s := by
  show handleK (M.bind m f) _ _ _ _ _ = _
  unfold handleK M.bind
  rcases m s with ⟨s1, r⟩
  cases r <;> rfl

theorem handleK_mbind (m : M β) (f : β → M α) :
    handleK (M.bind m f) kOk kThrow kExit kHang s =
      handleK m (fun b => handleK (f b) kOk kThrow kExit kHang) kThrow kExit kHang s :=
  handleK_bind kOk kThrow kExit kHang s m f

theorem handleK_pure (a : α) : handleK (pure a : M α) kOk kThrow kExit kHang s = kOk a s := rfl

theorem handleK_emit (kOk : Unit → St → γ) (e : Event) :
    handleK (emit e) kOk kThrow kExit kHang s = kOk () { s with trace := s.trace ++ [e] } := rfl

theorem handleK_consoleLog (kOk : Unit → St → γ) (l : Log) :
    handleK (consoleLog l) kOk kThrow kExit kHang s =
      kOk () { s with trace := s.trace ++ [.log l] } := rfl

theorem handleK_processExit (c : Nat) :
    handleK (processExit c : M α) kOk kThrow kExit kHang s = kExit c s := rfl

theorem handleK_call (r : Except Err α) :
    handleK (call r) kOk kThrow kExit kHang s =
      match r with
      | .ok a => kOk a s
      | .error e => kThrow e s := by
  cases r <;> rfl

theorem handleK_await (o : Outcome α) :
    handleK (await o) kOk kThrow kExit kHang s =
      match o with
      | .resolved a => kOk a s
      | .rejected e => kThrow e s
      | .pending b => kHang b s := by
  cases o <;> rfl

theorem handleK_tryCatch (body : M α) (handler : Err → M α) :
    handleK (tryCatch body handler) kOk kThrow kExit kHang s =
      handleK body kOk (fun e => handleK (handler e) kOk kThrow kExit kHang) kExit kHang s := by
  unfold handleK tryCatch
  rcases body s with ⟨s1, r⟩
  cases r <;> rfl

theorem handleK_setMessenger (kOk : Unit → St → γ) (o : MessengerOptions) :
    handleK (setMessenger o) kOk kThrow kExit kHang s =
      kOk () { s with crossChainMessenger := some o } := rfl

theorem handleK_messenger (kOk : MessengerOptions → St → γ) :
    handleK messenger kOk kThrow kExit kHang s =
      match s.crossChainMessenger with
      | some o => kOk o s
      | none => kThrow "TypeError: Cannot read properties of undefined" s := by
  unfold handleK messenger
  cases s.crossChainMessenger <;> rfl

theorem handleK_balanceRead_l1 (kOk : Nat → St → γ) :
    handleK (balanceRead .l1) kOk kThrow kExit kHang s =
      kOk s.l1Reads
        { s with trace := s.trace ++ [.getBalance .l1 s.l1Reads], l1Reads := s.l1Reads + 1 } :=
  rfl

theorem handleK_balanceRead_l2 (kOk : Nat → St → γ) :
    handleK (balanceRead .l2) kOk kThrow kExit kHang s =
      kOk s.l2Reads
        { s with trace := s.trace ++ [.getBalance .l2 s.l2Reads], l2Reads := s.l2Reads + 1 } :=
  rfl

theorem handleK_newDate (kOk : Int → St → γ) (env : Env) :
    handleK (newDate env) kOk kThrow kExit kHang s =
      kOk (env.now s.dates) { s with trace := s.trace ++ [.newDate], dates := s.dates + 1 } :=
  rfl

theorem handleK_ite (c : Prop) [Decidable c] (a b : M α) :
    handleK (if c then a else b) kOk kThrow kExit kHang s =
      if c then handleK a kOk kThrow kExit kHang s else handleK b kOk kThrow kExit kHang s := by
  split <;> rfl

end Calculus

/-- A piece of script code is the `handleK` of itself with the constructors as continuations. -/
theorem apply_eq_handleK {α : Type} (m : M α) (s : St) :
    m s = handleK m (fun a s1 => (s1, .ok a)) (fun e s1 => (s1, .throw e))
      (fun c s1 => (s1, .exit c)) (fun b s1 => (s1, .hang b)) s := by
  unfold handleK
  rcases m s with ⟨s1, r⟩
  cases r <;> rfl

/-- The run of the process, as the `handleK` of the script. -/
theorem run_eq_handleK (env : Env) :
    run env = handleK (script env) (fun _ s => { trace := s.trace, exit := some 0 })
      (fun e s => { trace := s.trace ++ [.uncaught e], exit := some 1 })
      (fun c s => { trace := s.trace, exit := some c })
      (fun b s => { trace := s.trace, exit := if b then none else some 0 }) St.init := by
  unfold run handleK
  rcases script env St.init with ⟨s1, r⟩
  rcases r with _ | _ | _ | _ | _ <;> rfl

/-- A property of the run, read off the ends of the script. -/
theorem run_prop (env : Env) (P : Run → Prop) :
    P (run env) ↔ handleK (script env) (fun _ s => P { trace := s.trace, exit := some 0 })
      (fun e s => P { trace := s.trace ++ [.uncaught e], exit := some 1 })
      (fun c s => P { trace := s.trace, exit := some c })
      (fun b s => P { trace := s.trace, exit := if b then none else some 0 }) St.init := by
  unfold run handleK
  rcases script env St.init with ⟨s1, r⟩
  rcases r with _ | _ | _ | _ | _ <;> exact Iff.rfl

/-! ## JavaScript strings and numerals -/

theorem trimChars_eq (cs : List Char) :
    trimChars cs = List.rdropWhile isWhiteSpace (cs.dropWhile isWhiteSpace) := rfl

theorem trimChars_of_no_space (cs : List Char) (h : ∀ c ∈ cs, isWhiteSpace c = false) :
    trimChars cs = cs := by
  have h1 : cs.dropWhile isWhiteSpace = cs := by
    cases cs with
    | nil => rfl
    | cons a t => simp [List.dropWhile, h a (List.mem_cons_self a t)]
  have h2 : cs.reverse.dropWhile isWhiteSpace = cs.reverse := by
    cases hr : cs.reverse with
    | nil => rfl
    | cons a t =>
      have : a ∈ cs := by
        have : a ∈ cs.reverse := by rw [hr]; exact List.mem_cons_self a t
        simpa using this
      simp [List.dropWhile, h a this]
  unfold trimChars
  rw [h1, h2, List.reverse_reverse]

theorem trimChars_idem (cs : List Char) : trimChars (trimChars cs) = trimChars cs := by
  have h1 : (trimChars cs).dropWhile isWhiteSpace = trimChars cs := by
    rw [List.dropWhile_eq_self_iff]
    intro hl hp
    obtain ⟨t, ht⟩ : trimChars cs <+: cs.dropWhile isWhiteSpace := List.rdropWhile_prefix _ _
    have hD := (List.dropWhile_eq_self_iff (p := isWhiteSpace) (l := cs.dropWhile isWhiteSpace)).1
      (List.dropWhile_idempotent _ _)
    cases hT : trimChars cs with
    | nil => simp [hT] at hl
    | cons a r =>
      rw [hT] at ht
      have hpa : isWhiteSpace a = true := by simpa [hT] using hp
      have hlen : 0 < (cs.dropWhile isWhiteSpace).length := by rw [← ht]; simp
      have := hD hlen
      apply this
      simpa [← ht] using hpa
  rw [trimChars_eq (trimChars cs), h1, trimChars_eq, List.rdropWhile_idempotent]

theorem trim_idem (s : String) : trim (trim s) = trim s := by
  unfold trim
  rw [trimChars_idem]

theorem digitsOf_lt (n : Nat) (h : n < 10) : digitsOf n = [Nat.digitChar n] := by
  rw [digitsOf, if_pos h]

theorem digitsOf_ge (n : Nat) (h : 10 ≤ n) :
    digitsOf n = digitsOf (n / 10) ++ [Nat.digitChar (n % 10)] := by
  rw [digitsOf, if_neg (by omega)]

theorem toDigitsCore_eq (fuel : Nat) : ∀ (n : Nat) (ds : List Char), n < fuel →
    Nat.toDigitsCore 10 fuel n ds = digitsOf n ++ ds := by
  induction fuel with
  | zero => intro n ds h; omega
  | succ f ih =>
    intro n ds h
    simp only [Nat.toDigitsCore]
    by_cases h0 : n / 10 = 0
    · have hn : n < 10 := by omega
      rw [if_pos h0, digitsOf_lt n hn, Nat.mod_eq_of_lt hn]
      rfl
    · have hn : 10 ≤ n := by omega
      rw [if_neg h0, ih (n / 10) _ (by omega), digitsOf_ge n hn]
      simp

theorem repr_data (n : Nat) : (Nat.repr n).data = digitsOf n := by
  show Nat.toDigitsCore 10 (n + 1) n [] = digitsOf n
  rw [toDigitsCore_eq (n + 1) n [] (by omega), List.append_nil]

theorem repr_eq (n : Nat) : Nat.repr n = String.mk (digitsOf n) := by
  rw [← repr_data]

theorem digitValue_digitChar (d : Nat) (h : d < 10) : digitValue 10 (Nat.digitChar d) = some d := by
  interval_cases d <;> decide

theorem isWhiteSpace_digitChar (d : Nat) (h : d < 10) : isWhiteSpace (Nat.digitChar d) = false := by
  interval_cases d <;> decide

/-- The characters of a decimal numeral are decimal digits. -/
theorem digitsOf_digit (n : Nat) : ∀ c ∈ digitsOf n, ∃ d, d < 10 ∧ c = Nat.digitChar d := by
  induction n using Nat.strong_induction_on with
  | _ n ih =>
    intro c hc
    by_cases h : n < 10
    · rw [digitsOf_lt n h] at hc
      exact ⟨n, h, by simpa using hc⟩
    · rw [digitsOf_ge n (by omega)] at hc
      rcases List.mem_append.1 hc with hc | hc
      · exact ih (n / 10) (by omega) c hc
      · exact ⟨n % 10, by omega, by simpa using hc⟩

theorem digitsOf_ne_nil (n : Nat) : digitsOf n ≠ [] := by
  by_cases h : n < 10
  · rw [digitsOf_lt n h]; simp
  · rw [digitsOf_ge n (by omega)]; simp

theorem readDigits_append (base : Nat) (l1 l2 : List Char) : ∀ acc : Nat,
    readDigits base acc (l1 ++ l2) =
      (readDigits base acc l1).bind (fun a => readDigits base a l2) := by
  induction l1 with
  | nil => intro acc; rfl
  | cons c t ih =>
    intro acc
    simp only [List.cons_append, readDigits]
    cases digitValue base c with
    | none => rfl
    | some d => exact ih _

theorem readDigits_digitsOf (n : Nat) : readDigits 10 0 (digitsOf n) = some n := by
  induction n using Nat.strong_induction_on with
  | _ n ih =>
    by_cases h : n < 10
    · rw [digitsOf_lt n h]
      simp [readDigits, digitValue_digitChar n h]
    · rw [digitsOf_ge n (by omega), readDigits_append, ih (n / 10) (by omega)]
      simp only [Option.some_bind, readDigits, digitValue_digitChar (n % 10) (by omega)]
      congr 1
      omega

/-- Dropping the last `k` digits of a numeral of more than `k` digits divides by `10 ^ k`. -/
theorem digitsOf_split (k : Nat) : ∀ n : Nat, 10 ^ k ≤ n →
    ∃ low : List Char, low.length = k ∧ digitsOf n = digitsOf (n / 10 ^ k) ++ low := by
  induction k with
  | zero => intro n _; exact ⟨[], rfl, by simp⟩
  | succ k ih =>
    intro n hn
    have h10 : 10 ≤ n := by
      have : 10 ^ 1 ≤ 10 ^ (k + 1) := Nat.pow_le_pow_right (by omega) (by omega)
      omega
    have hk : 10 ^ k ≤ n / 10 := by
      rw [Nat.le_div_iff_mul_le (by omega)]
      rw [pow_succ] at hn
      exact hn
    obtain ⟨low, hlen, hlow⟩ := ih (n / 10) hk
    refine ⟨low ++ [Nat.digitChar (n % 10)], by simp [hlen], ?_⟩
    rw [digitsOf_ge n h10, hlow, Nat.div_div_eq_div_mul, pow_succ, Nat.mul_comm 10 (10 ^ k)]
    simp

theorem gweiFigure_eq (b : Nat) :
    gweiFigure b = String.mk ((digitsOf b).take ((digitsOf b).length - 9)) := by
  unfold gweiFigure slice sliceIndex
  simp only [repr_data]
  congr 1
  simp
  omega

/-- From one Gwei upwards the printed figure is the numeral of the balance in whole Gwei. -/
theorem gweiFigure_of_ge (b : Nat) (h : 10 ^ 9 ≤ b) : gweiFigure b = Nat.repr (b / 10 ^ 9) := by
  obtain ⟨low, hlen, hlow⟩ := digitsOf_split 9 b h
  rw [gweiFigure_eq, repr_eq, hlow]
  congr 1
  simp [hlen]

/-- Below one Gwei the printed figure is the empty string. -/
theorem gweiFigure_of_lt (b : Nat) (h : b < 10 ^ 9) : gweiFigure b = "" := by
  rw [gweiFigure_eq]
  have hlen : (digitsOf b).length ≤ 9 := by
    have := Nat.repr_length b 9 (by omega) h
    rw [repr_eq] at this
    simpa [String.length] using this
  rw [Nat.sub_eq_zero_of_le hlen]
  rfl

theorem digitChar_not_mark (c : Char) (h : ∃ d, d < 10 ∧ c = Nat.digitChar d) :
    c ≠ '+' ∧ c ≠ '-' ∧ radixOf c = none := by
  obtain ⟨d, hd, rfl⟩ := h
  interval_cases d <;> decide

theorem digitsValue_of_ne_nil (base : Nat) (l : List Char) (h : l ≠ []) :
    digitsValue base l = readDigits base 0 l := by
  cases l with
  | nil => exact absurd rfl h
  | cons a t => rfl

/-- `StringToBigInt` on a non-empty run of decimal digits reads it as a decimal numeral. -/
theorem StringToBigInt_digits (l : List Char) (hne : l ≠ [])
    (hd : ∀ c ∈ l, ∃ d, d < 10 ∧ c = Nat.digitChar d) :
    StringToBigInt (String.mk l) = (readDigits 10 0 l).map Int.ofNat := by
  have hws : ∀ c ∈ l, isWhiteSpace c = false := by
    intro c hc
    obtain ⟨d, hd10, rfl⟩ := hd c hc
    exact isWhiteSpace_digitChar d hd10
  unfold StringToBigInt
  simp only [trimChars_of_no_space l hws]
  cases l with
  | nil => exact absurd rfl hne
  | cons c ds =>
    obtain ⟨h1, h2, -⟩ := digitChar_not_mark c (hd c (List.mem_cons_self c ds))
    have h3 : (if c = '0' then ds.head?.bind radixOf else none) = none := by
      split
      · cases ds with
        | nil => rfl
        | cons d t => exact (digitChar_not_mark d (hd d (by simp))).2.2
      · rfl
    simp only [h1, h2, if_false, h3]
    rfl

/-- `StringToBigInt` on a minus sign followed by decimal digits. -/
theorem StringToBigInt_neg_digits (l : List Char) (hne : l ≠ [])
    (hd : ∀ c ∈ l, ∃ d, d < 10 ∧ c = Nat.digitChar d) :
    StringToBigInt (String.mk ('-' :: l)) = (readDigits 10 0 l).map (fun n => - Int.ofNat n) := by
  have hws : ∀ c ∈ '-' :: l, isWhiteSpace c = false := by
    intro c hc
    rcases List.mem_cons.1 hc with rfl | hc
    · decide
    · obtain ⟨d, hd10, rfl⟩ := hd c hc
      exact isWhiteSpace_digitChar d hd10
  unfold StringToBigInt
  simp only [trimChars_of_no_space _ hws]
  rw [if_pos trivial, digitsValue_of_ne_nil 10 l hne, if_neg (by decide)]

/-- `BigInt` reads back the decimal numeral of every integer. -/
theorem BigInt_toString (n : Int) : BigInt (toString n) = .ok n := by
  unfold BigInt
  cases n with
  | ofNat m =>
    have h : toString (Int.ofNat m) = String.mk (digitsOf m) := repr_eq m
    rw [h, StringToBigInt_digits _ (digitsOf_ne_nil m) (digitsOf_digit m), readDigits_digitsOf]
    rfl
  | negSucc m =>
    have h : toString (Int.negSucc m) = String.mk ('-' :: digitsOf (m + 1)) := by
      show "-" ++ Nat.repr (m + 1) = _
      rw [repr_eq]
      rfl
    rw [h, StringToBigInt_neg_digits _ (digitsOf_ne_nil _) (digitsOf_digit _), readDigits_digitsOf]
    rfl

theorem toString_int_ne_empty (n : Int) : toString n ≠ "" := by
  cases n with
  | ofNat m =>
    have h : toString (Int.ofNat m) = String.mk (digitsOf m) := repr_eq m
    rw [h]
    intro hc
    exact digitsOf_ne_nil m (congrArg String.data hc)
  | negSucc m =>
    have h : toString (Int.negSucc m) = String.mk ('-' :: digitsOf (m + 1)) := by
      show "-" ++ Nat.repr (m + 1) = _
      rw [repr_eq]
      rfl
    rw [h]
    intro hc
    exact List.cons_ne_nil _ _ (congrArg String.data hc)

/-- The amount the script reads from an argument vector whose amount is the decimal numeral of
`n`, or is absent with `n = 1`. -/
theorem ethAmount_eq (argv : List String) (n : Int)
    (h : argv[3]? = some (toString n) ∨ (argv[3]? = none ∧ n = 1)) :
    BigInt (orElse argv[3]? "1") = .ok n := by
  rcases h with h | ⟨h, rfl⟩
  · rw [h]
    simp only [orElse, if_neg (toString_int_ne_empty n)]
    exact BigInt_toString n
  · rw [h]
    rfl

theorem eth_eq : eth = 10 ^ 18 := by decide

/-- What `trim` does to the characters of a string: the text is a run of white space, the result,
and a run of white space, and the result neither begins nor ends with white space. -/
theorem trimChars_spec (cs : List Char) :
    ∃ pre post, cs = pre ++ trimChars cs ++ post ∧ allWhiteSpace pre ∧ allWhiteSpace post
      ∧ (∀ c, (trimChars cs).head? = some c → isWhiteSpace c = false)
      ∧ (∀ c, (trimChars cs).getLast? = some c → isWhiteSpace c = false) := by
  have hsplit : ∀ l : List Char,
      l = List.rdropWhile isWhiteSpace l ++ List.rtakeWhile isWhiteSpace l := by
    intro l
    have h := List.takeWhile_append_dropWhile isWhiteSpace l.reverse
    have h2 := congrArg List.reverse h
    simp only [List.reverse_append, List.reverse_reverse] at h2
    exact h2.symm
  refine ⟨cs.takeWhile isWhiteSpace, List.rtakeWhile isWhiteSpace (cs.dropWhile isWhiteSpace),
    ?_, ?_, ?_, ?_, ?_⟩
  · rw [List.append_assoc, trimChars_eq, ← hsplit, List.takeWhile_append_dropWhile]
  · intro c hc
    exact List.mem_takeWhile_imp hc
  · intro c hc
    exact List.mem_rtakeWhile_imp hc
  · intro c hc
    have h1 : (trimChars cs).dropWhile isWhiteSpace = trimChars cs := by
      have := trimChars_idem cs
      rw [trimChars_eq (trimChars cs)] at this
      have hp : (List.rdropWhile isWhiteSpace (List.dropWhile isWhiteSpace (trimChars cs))).length
          ≤ (List.dropWhile isWhiteSpace (trimChars cs)).length :=
        (List.rdropWhile_prefix isWhiteSpace _).length_le
      have hs : (List.dropWhile isWhiteSpace (trimChars cs)).length ≤ (trimChars cs).length :=
        (List.dropWhile_suffix isWhiteSpace).length_le
      rw [this] at hp
      exact (List.dropWhile_suffix isWhiteSpace).eq_of_length (le_antisymm hs hp)
    cases hT : trimChars cs with
    | nil => rw [hT] at hc; simp at hc
    | cons a t =>
      rw [hT] at hc h1
      simp only [List.head?_cons, Option.some.injEq] at hc
      subst hc
      by_contra hws
      have hws : isWhiteSpace a = true := by simpa using hws
      rw [List.dropWhile_cons_of_pos hws] at h1
      have := (List.dropWhile_suffix isWhiteSpace (l := t)).length_le
      rw [h1] at this
      simp at this
  · intro c hc
    by_cases hne : trimChars cs = []
    · rw [hne] at hc; simp at hc
    · rw [List.getLast?_eq_getLast _ hne] at hc
      have := List.rdropWhile_last_not isWhiteSpace (cs.dropWhile isWhiteSpace) hne
      simp only [Option.some.injEq] at hc
      subst hc
      simpa [trimChars_eq] using this

theorem falsy_eq_false (a : Option String) (h : falsy a = false) :
    ∃ key, a = some key ∧ key ≠ "" := by
  cases a with
  | none => simp [falsy] at h
  | some key => exact ⟨key, rfl, by simpa [falsy] using h⟩

theorem falsy_some (key : String) (h : key ≠ "") : falsy (some key) = false := by
  simpa [falsy] using h

set_option maxHeartbeats 4000000 in
/-- The run in which `main` is reached and every step succeeds. -/
theorem run_of_completes (env : Env) (m : Module) (hm : moduleLoads env m)
    (hs : setupSucceeds env m) (b1 b2 b3 b4 : Nat) (hash : String)
    (h1 : env.getBalance .l1 0 = .resolved b1) (h2 : env.getBalance .l2 0 = .resolved b2)
    (hsub : env.depositETH (m.ethAmount * eth) = .resolved hash)
    (hw : env.wait hash = .resolved ())
    (hr : env.waitForMessageStatus hash .RELAYED none = .resolved ())
    (h3 : env.getBalance .l1 1 = .resolved b3) (h4 : env.getBalance .l2 1 = .resolved b4) :
    run env =
      { trace := setupTrace m ++
          [.log .depositETH,
            .getBalance .l1 0, .getBalance .l2 0,
            .log (.balances (gweiFigure b1) (gweiFigure b2)),
            .newDate,
            .depositETH (m.ethAmount * eth),
            .log (.transactionHash hash),
            .wait hash,
            .log .waiting,
            .newDate,
            .log (.timeSoFar (env.now 1 - env.now 0)),
            .waitForMessageStatus hash .RELAYED none,
            .getBalance .l1 1, .getBalance .l2 1,
            .log (.balances (gweiFigure b3) (gweiFigure b4)),
            .newDate,
            .log (.took (env.now 2 - env.now 0)),
            .log .done]
        exit := some 0 } := by
  obtain ⟨key, n, a1, a2, a3, a4, a5, hkey, hne, hn, r1, r2, r3, r4, r5, rfl⟩ := hm
  obtain ⟨s1, s2, s3, s4, s5⟩ := hs
  simp only [messengerOptions] at s5
  simp only at s1 s2 s3 s4 s5 hsub
  rw [run_eq_handleK]
  simp only [script, loadModule, readAddressFromFile, thenCatch, main, setup, getSigners,
    depositETH, reportBalances, getBalance, handleK_bind, handleK_mbind, handleK_pure,
    handleK_emit, handleK_consoleLog, handleK_processExit, handleK_call, handleK_await,
    handleK_tryCatch, handleK_setMessenger, handleK_messenger, handleK_balanceRead_l1,
    handleK_balanceRead_l2, handleK_newDate, handleK_ite, St.init, List.nil_append,
    List.append_assoc, List.singleton_append, List.cons_append, Nat.zero_add, Nat.reduceAdd,
    hkey, falsy_some key hne, Bool.false_eq_true, if_false, Option.getD_some, hn, r1, r2, r3, r4,
    r5, messengerOptions, s1, s2, s3, s4, s5, h1, h2, h3, h4, hsub, hw, hr, setupTrace]

set_option maxHeartbeats 4000000 in
/-- A run that prints `Done` is one in which `main` is reached and every step succeeds. -/
theorem completes_of_done (env : Env) (h : Event.log .done ∈ (run env).trace) :
    mainCompletes env := by
  by_cases hf : falsy env.argv[2]? = true
  · revert h
    rw [run_eq_handleK]
    simp only [script, loadModule, handleK_bind, handleK_ite, handleK_consoleLog,
      handleK_processExit, hf, if_true, St.init, List.nil_append]
    simp
  · obtain ⟨key, hkey, hne⟩ := falsy_eq_false _ (by simpa using hf)
    revert h
    refine (run_prop env (fun r => Event.log .done ∈ r.trace → mainCompletes env)).2 ?_
    simp only [script, loadModule, readAddressFromFile, thenCatch, main, setup, getSigners,
      depositETH, reportBalances, getBalance, handleK_bind, handleK_mbind, handleK_pure,
      handleK_emit, handleK_consoleLog, handleK_processExit, handleK_call, handleK_await,
      handleK_tryCatch, handleK_setMessenger, handleK_messenger, handleK_balanceRead_l1,
      handleK_balanceRead_l2, handleK_newDate, handleK_ite, St.init, List.nil_append,
      List.append_assoc, List.singleton_append, List.cons_append, Nat.zero_add, Nat.reduceAdd,
      hkey, falsy_some key hne, Bool.false_eq_true, if_false, Option.getD_some]
    repeat' split
    all_goals first | (intro h; simp at h; done) | skip
    intro _
    refine ⟨_, ⟨key, _, _, _, _, _, _, hkey, hne, by assumption, by assumption, by assumption,
      by assumption, by assumption, by assumption, rfl⟩,
      ⟨by assumption, by assumption, by assumption, by assumption, by assumption⟩,
      ⟨_, _, _, _, _, by assumption, by assumption, by assumption, by assumption, by assumption,
        by assumption, by assumption⟩⟩

set_option maxHeartbeats 8000000 in
/-- How a run with a credential ends, read off its trace and its exit status. -/
theorem run_ends (env : Env) (key : String) (hkey : env.argv[2]? = some key) (hne : key ≠ "") :
    ((run env).exit = some 0 →
        Event.log .done ∈ (run env).trace
        ∨ ∃ x, (run env).trace.getLast? = some x ∧ stalledAt env false x)
    ∧ ((∃ x, (run env).trace.getLast? = some x ∧ stalledAt env false x) →
        (run env).exit = some 0 ∧ Event.log .done ∉ (run env).trace)
    ∧ (∀ x ∈ (run env).trace, ∀ e, failedAt env e x →
        (run env).exit = some 1 ∧ (run env).trace.getLast? = some (.log (.error e)))
    ∧ ((run env).exit = some 1 →
        ∃ x, (run env).trace.getLast? = some x ∧ isErrorReport x = true)
    ∧ (Event.log .done ∈ (run env).trace →
        (run env).exit = some 0 ∧ (run env).trace.getLast? = some (.log .done)) := by
  refine (run_prop env (fun r =>
    (r.exit = some 0 →
        Event.log .done ∈ r.trace ∨ ∃ x, r.trace.getLast? = some x ∧ stalledAt env false x)
    ∧ ((∃ x, r.trace.getLast? = some x ∧ stalledAt env false x) →
        r.exit = some 0 ∧ Event.log .done ∉ r.trace)
    ∧ (∀ x ∈ r.trace, ∀ e, failedAt env e x →
        r.exit = some 1 ∧ r.trace.getLast? = some (.log (.error e)))
    ∧ (r.exit = some 1 → ∃ x, r.trace.getLast? = some x ∧ isErrorReport x = true)
    ∧ (Event.log .done ∈ r.trace →
        r.exit = some 0 ∧ r.trace.getLast? = some (.log .done)))).2 ?_
  simp only [script, loadModule, readAddressFromFile, thenCatch, main, setup, getSigners,
    depositETH, reportBalances, getBalance, handleK_bind, handleK_mbind, handleK_pure,
    handleK_emit, handleK_consoleLog, handleK_processExit, handleK_call, handleK_await,
    handleK_tryCatch, handleK_setMessenger, handleK_messenger, handleK_balanceRead_l1,
    handleK_balanceRead_l2, handleK_newDate, handleK_ite, St.init, List.nil_append,
    List.append_assoc, List.singleton_append, List.cons_append, Nat.zero_add, Nat.reduceAdd,
    hkey, falsy_some key hne, Bool.false_eq_true, if_false, Option.getD_some]
  repeat' split
  all_goals
    refine ⟨?_, ?_, ?_, ?_, ?_⟩
  all_goals simp_all [stalledAt, isErrorReport, failedAt]

/-- In `sampleEnv` the function `main` is reached and every step succeeds. -/
theorem sampleEnv_completes : mainCompletes sampleEnv :=
  ⟨_, ⟨"0xabc", 3, _, _, _, _, _, rfl, by decide, rfl, rfl, rfl, rfl, rfl, rfl, rfl⟩,
    ⟨rfl, rfl, rfl, rfl, rfl⟩, ⟨_, _, _, _, "0xhash", rfl, rfl, rfl, rfl, rfl, rfl, rfl⟩⟩

/-! ## The claims -/

/-- C1, refuted: in `silentEnv` the credential is present and `response.wait()` never settles
while nothing keeps the process alive; the process exits with status 0 although `main` does not
complete, and `Done` is not printed. -/
theorem exit_zero_without_completion :
    silentEnv.argv[2]? = some "0xabc"
    ∧ (run silentEnv).exit = some 0
    ∧ ¬ mainCompletes silentEnv
    ∧ Event.log .done ∉ (run silentEnv).trace := by
  refine ⟨rfl, by decide, ?_, by decide⟩
  rintro ⟨m, -, -, b1, b2, b3, b4, hash, -, -, -, hw, -⟩
  exact Outcome.noConfusion hw

/-- C1, amended: in every run in which the credential is present, `Done` is printed exactly when
`main` is reached and completes (`setup`, both balance reports, the submission, the source
confirmation and the wait for RELAYED all succeed), and it is then the last output and the exit
status is 0; the process exits with status 0 exactly when `main` completes or the run is stuck on
an awaited call that never settles and keeps nothing alive; whenever a call of `main` fails, the
process exits with status 1 and the `Error` line with that failure is its last output; and every
run that exits with status 1 ends on an error report. -/
theorem exit_status (env : Env) (key : String) (hkey : env.argv[2]? = some key)
    (hne : key ≠ "") :
    (Event.log .done ∈ (run env).trace ↔ mainCompletes env)
    ∧ (mainCompletes env →
        (run env).exit = some 0 ∧ (run env).trace.getLast? = some (.log .done))
    ∧ ((run env).exit = some 0 ↔
        mainCompletes env ∨ ∃ x, (run env).trace.getLast? = some x ∧ stalledAt env false x)
    ∧ (∀ x ∈ (run env).trace, ∀ e, failedAt env e x →
        (run env).exit = some 1 ∧ (run env).trace.getLast? = some (.log (.error e)))
    ∧ ((run env).exit = some 1 →
        ∃ x, (run env).trace.getLast? = some x ∧ isErrorReport x = true) := by
  obtain ⟨h0, hstall, hfail, h1, hdone⟩ := run_ends env key hkey hne
  have hcomp : mainCompletes env → Event.log .done ∈ (run env).trace := by
    rintro ⟨m, hm, hs, b1, b2, b3, b4, hash, g1, g2, gsub, gw, gr, g3, g4⟩
    rw [run_of_completes env m hm hs b1 b2 b3 b4 hash g1 g2 gsub gw gr g3 g4]
    simp
  refine ⟨⟨completes_of_done env, hcomp⟩, fun hc => hdone (hcomp hc), ⟨?_, ?_⟩, hfail,
    h1⟩
  · intro h
    rcases h0 h with hd | hs
    · exact Or.inl (completes_of_done env hd)
    · exact Or.inr hs
  · rintro (hc | hs)
    · exact (hdone (hcomp hc)).1
    · exact (hstall hs).1

/-- C1, amended, at a run in which every step succeeds, which exits with status 0 after `Done`,
and at a run whose submission is rejected, which exits with status 1 after the `Error` line. -/
theorem exit_status_witness :
    ((run sampleEnv).exit = some 0 ∧ (run sampleEnv).trace.getLast? = some (.log .done))
    ∧ ((run rejectingEnv).exit = some 1
        ∧ (run rejectingEnv).trace.getLast? = some (.log (.error "insufficient funds"))) :=
  ⟨(exit_status sampleEnv "0xabc" rfl (by decide)).2.1 sampleEnv_completes,
    (exit_status rejectingEnv "0xabc" rfl (by decide)).2.2.2.1
      (.depositETH (3 * 10 ^ 18)) (by decide) "insufficient funds" rfl⟩

set_option maxHeartbeats 4000000 in
/-- C2: in every run, whatever fails later, the submission `crossChainMessenger.depositETH` is
called at most once. -/
theorem submission_at_most_once (env : Env) :
    ((run env).trace.filter isSubmission).length ≤ 1 := by
  refine (run_prop env (fun r => (r.trace.filter isSubmission).length ≤ 1)).2 ?_
  simp only [script, loadModule, readAddressFromFile, thenCatch, main, setup, getSigners,
    depositETH, reportBalances, getBalance, handleK_bind, handleK_mbind, handleK_pure,
    handleK_emit, handleK_consoleLog, handleK_processExit, handleK_call, handleK_await,
    handleK_tryCatch, handleK_setMessenger, handleK_messenger, handleK_balanceRead_l1,
    handleK_balanceRead_l2, handleK_newDate, handleK_ite, St.init, List.nil_append,
    List.append_assoc, List.singleton_append, List.cons_append, Nat.zero_add, Nat.reduceAdd]
  repeat' split
  all_goals simp [isSubmission]

set_option maxHeartbeats 4000000 in
/-- C3: in every run in which the submission `crossChainMessenger.depositETH` is issued and
fails, the process exits with status 1; nothing follows the submission but the `Error` line, so
there is no `response.wait`, no `waitForMessageStatus` and no balance report after it, and the
one balance line of the run is the one printed before the submission. -/
theorem submission_failure (env : Env) (v : Int) (e : Err)
    (hsub : Event.depositETH v ∈ (run env).trace) (hrej : env.depositETH v = .rejected e) :
    (run env).exit = some 1
    ∧ eventsAfter isSubmission (run env).trace = [.log (.error e)]
    ∧ (∀ x ∈ (run env).trace, isSourceWait x = false ∧ isRelayWait x = false)
    ∧ ((run env).trace.filter isBalanceLine).length = 1 := by
  revert hsub
  refine (run_prop env (fun r => Event.depositETH v ∈ r.trace → r.exit = some 1
    ∧ eventsAfter isSubmission r.trace = [.log (.error e)]
    ∧ (∀ x ∈ r.trace, isSourceWait x = false ∧ isRelayWait x = false)
    ∧ (r.trace.filter isBalanceLine).length = 1)).2 ?_
  simp only [script, loadModule, readAddressFromFile, thenCatch, main, setup, getSigners,
    depositETH, reportBalances, getBalance, handleK_bind, handleK_mbind, handleK_pure,
    handleK_emit, handleK_consoleLog, handleK_processExit, handleK_call, handleK_await,
    handleK_tryCatch, handleK_setMessenger, handleK_messenger, handleK_balanceRead_l1,
    handleK_balanceRead_l2, handleK_newDate, handleK_ite, St.init, List.nil_append,
    List.append_assoc, List.singleton_append, List.cons_append, Nat.zero_add, Nat.reduceAdd]
  repeat' split
  all_goals first | (intro hsub; simp at hsub; done) | skip
  all_goals
    (intro hsub
     simp at hsub
     subst hsub
     simp_all [eventsAfter, isSubmission, isSourceWait, isRelayWait, isBalanceLine])

/-- C3 at a run whose submission of 3 ETH is rejected for insufficient funds. -/
theorem submission_failure_witness :
    (run rejectingEnv).exit = some 1
    ∧ eventsAfter isSubmission (run rejectingEnv).trace = [.log (.error "insufficient funds")]
    ∧ (∀ x ∈ (run rejectingEnv).trace, isSourceWait x = false ∧ isRelayWait x = false)
    ∧ ((run rejectingEnv).trace.filter isBalanceLine).length = 1 :=
  submission_failure rejectingEnv (3 * 10 ^ 18) "insufficient funds" (by decide) rfl

/-- C4: a successful run, one that reports `Done`, exits with status 0 and consists of the ten
events of the module body and of `setup`, followed by exactly: the balance report, the first
clock reading, the submission, which resolved, the source confirmation wait, which resolved, the
second clock reading, the wait for RELAYED, which resolved, the second balance report, the third
clock reading and the line of the elapsed time between the first and the third clock reading, and
`Done`.  So the run has two balance lines, one before the submission and one after the relay
wait has returned, and the elapsed time is counted from a start taken before the submission. -/
theorem successful_run_trace (env : Env) (h : Event.log .done ∈ (run env).trace) :
    (run env).exit = some 0
    ∧ (∀ x ∈ (run env).trace.take 10, isSetupEvent x = true)
    ∧ ((run env).trace.filter isBalanceLine).length = 2
    ∧ ∃ n b1 b2 b3 b4 hash,
        BigInt (orElse env.argv[3]? "1") = .ok n
        ∧ env.getBalance .l1 0 = .resolved b1 ∧ env.getBalance .l2 0 = .resolved b2
        ∧ env.depositETH (n * eth) = .resolved hash
        ∧ env.wait hash = .resolved ()
        ∧ env.waitForMessageStatus hash .RELAYED none = .resolved ()
        ∧ env.getBalance .l1 1 = .resolved b3 ∧ env.getBalance .l2 1 = .resolved b4
        ∧ (run env).trace.drop 10 =
          [.log .depositETH,
            .getBalance .l1 0, .getBalance .l2 0,
            .log (.balances (gweiFigure b1) (gweiFigure b2)),
            .newDate,
            .depositETH (n * eth),
            .log (.transactionHash hash),
            .wait hash,
            .log .waiting,
            .newDate,
            .log (.timeSoFar (env.now 1 - env.now 0)),
            .waitForMessageStatus hash .RELAYED none,
            .getBalance .l1 1, .getBalance .l2 1,
            .log (.balances (gweiFigure b3) (gweiFigure b4)),
            .newDate,
            .log (.took (env.now 2 - env.now 0)),
            .log .done] := by
  obtain ⟨m, hm, hs, b1, b2, b3, b4, hash, g1, g2, gsub, gw, gr, g3, g4⟩ :=
    completes_of_done env h
  rw [run_of_completes env m hm hs b1 b2 b3 b4 hash g1 g2 gsub gw gr g3 g4]
  obtain ⟨key, n, a1, a2, a3, a4, a5, hkey, hne, hn, r1, r2, r3, r4, r5, rfl⟩ := hm
  refine ⟨rfl, by simp [setupTrace, isSetupEvent], by simp [setupTrace, isBalanceLine],
    n, b1, b2, b3, b4, hash, hn, g1, g2, gsub, gw, gr, g3, g4, ?_⟩
  simp [setupTrace]

/-- C4 at a run in which every step succeeds. -/
theorem successful_run_trace_witness :
    (run sampleEnv).exit = some 0
    ∧ ((run sampleEnv).trace.filter isBalanceLine).length = 2
    ∧ (run sampleEnv).trace.drop 10 =
        [.log .depositETH,
          .getBalance .l1 0, .getBalance .l2 0,
          .log (.balances "9000000000" ""),
          .newDate,
          .depositETH 3000000000000000000,
          .log (.transactionHash "0xhash"),
          .wait "0xhash",
          .log .waiting,
          .newDate,
          .log (.timeSoFar 2500),
          .waitForMessageStatus "0xhash" .RELAYED none,
          .getBalance .l1 1, .getBalance .l2 1,
          .log (.balances "5999999999" "3000000000"),
          .newDate,
          .log (.took 5000),
          .log .done] :=
  ⟨(successful_run_trace sampleEnv (by decide)).1,
    (successful_run_trace sampleEnv (by decide)).2.2.1, by decide⟩

/-- C5: when the credential `process.argv[2]` is absent or empty, the script prints the usage
line and exits with status 1, and that is all it does: no amount is parsed, no file is read, no
signer or messenger is built, nothing is submitted. -/
theorem usage_when_no_credential (env : Env)
    (h : env.argv[2]? = none ∨ env.argv[2]? = some "") :
    run env = { trace := [.log .usage], exit := some 1 } := by
  have hf : falsy env.argv[2]? = true := by
    rcases h with h | h <;> rw [h] <;> rfl
  rw [run_eq_handleK]
  simp only [script, loadModule, handleK_bind, handleK_ite, handleK_consoleLog,
    handleK_processExit, hf, if_true, St.init, List.nil_append]

/-- C5 at the argument vectors `node index.js` and `node index.js '' 'not a number'`. -/
theorem usage_when_no_credential_witness :
    run { sampleEnv with argv := ["node", "index.js"] } = { trace := [.log .usage], exit := some 1 }
    ∧ run { sampleEnv with argv := ["node", "index.js", "", "not a number"] }
        = { trace := [.log .usage], exit := some 1 } :=
  ⟨usage_when_no_credential _ (Or.inl rfl), usage_when_no_credential _ (Or.inr rfl)⟩

set_option maxHeartbeats 4000000 in
/-- C6: in every run whose amount argument is the decimal numeral of an integer `n`, and with
`n = 1` in every run whose amount argument is absent, the value passed to
`crossChainMessenger.depositETH` is `n * 10 ^ 18`, where `gwei = 10 ^ 9` and
`eth = gwei * gwei = 10 ^ 18`; and a run that has printed its first balance line makes that
submission. -/
theorem deposit_value (env : Env) (n : Int)
    (h : env.argv[3]? = some (toString n) ∨ (env.argv[3]? = none ∧ n = 1)) :
    (∀ v, Event.depositETH v ∈ (run env).trace → v = n * 10 ^ 18)
    ∧ ((∃ x ∈ (run env).trace, isBalanceLine x = true) →
        Event.depositETH (n * 10 ^ 18) ∈ (run env).trace)
    ∧ gwei = 10 ^ 9 ∧ eth = gwei * gwei ∧ eth = 10 ^ 18 := by
  have hB := ethAmount_eq env.argv n h
  have key : (∀ v, Event.depositETH v ∈ (run env).trace → v = n * eth)
      ∧ ((∃ x ∈ (run env).trace, isBalanceLine x = true) →
        Event.depositETH (n * eth) ∈ (run env).trace) := by
    refine (run_prop env (fun r => (∀ v, Event.depositETH v ∈ r.trace → v = n * eth)
      ∧ ((∃ x ∈ r.trace, isBalanceLine x = true) →
        Event.depositETH (n * eth) ∈ r.trace))).2 ?_
    simp only [script, loadModule, readAddressFromFile, thenCatch, main, setup, getSigners,
      depositETH, reportBalances, getBalance, handleK_bind, handleK_mbind, handleK_pure,
      handleK_emit, handleK_consoleLog, handleK_processExit, handleK_call, handleK_await,
      handleK_tryCatch, handleK_setMessenger, handleK_messenger, handleK_balanceRead_l1,
      handleK_balanceRead_l2, handleK_newDate, handleK_ite, St.init, List.nil_append,
      List.append_assoc, List.singleton_append, List.cons_append, Nat.zero_add, Nat.reduceAdd,
      hB]
    repeat' split
    all_goals simp [isBalanceLine]
  rw [eth_eq] at key
  exact ⟨key.1, key.2, by decide, rfl, eth_eq⟩

/-- C6 at the amounts `3` and `-5` and at an absent amount. -/
theorem deposit_value_witness :
    Event.depositETH (3 * 10 ^ 18) ∈ (run sampleEnv).trace
    ∧ (∀ v,
        Event.depositETH v
          ∈ (run { sampleEnv with argv := ["node", "index.js", "k", "-5"] }).trace
        → v = -5 * 10 ^ 18)
    ∧ Event.depositETH (1 * 10 ^ 18)
        ∈ (run { sampleEnv with argv := ["node", "index.js", "k"] }).trace :=
  ⟨(deposit_value sampleEnv 3 (Or.inl rfl)).2.1
      ⟨.log (.balances "9000000000" ""), by decide, rfl⟩,
    (deposit_value { sampleEnv with argv := ["node", "index.js", "k", "-5"] } (-5)
      (Or.inl (by decide))).1,
    (deposit_value { sampleEnv with argv := ["node", "index.js", "k"] } 1
      (Or.inr ⟨rfl, rfl⟩)).2.1 ⟨.log (.balances "9000000000" ""), by decide, rfl⟩⟩

/-- C7, refuted: in `zeroBridgeEnv` the configured bridge contract address is the zero address,
yet the submission is issued and succeeds (its transaction hash is printed); so it is false that
with a zero bridge address no deposit is issued. -/
theorem zero_bridge_still_submitted :
    bridgeIsZero zeroBridgeEnv
    ∧ Event.log (.transactionHash "0xhash") ∈ (run zeroBridgeEnv).trace
    ∧ ¬ (bridgeIsZero zeroBridgeEnv →
        ∀ v, Event.depositETH v ∉ (run zeroBridgeEnv).trace) := by
  have hz : bridgeIsZero zeroBridgeEnv := ⟨_, rfl, by decide⟩
  refine ⟨hz, by decide, fun hclaim => ?_⟩
  exact hclaim hz (3 * 10 ^ 18) (by decide)

set_option maxHeartbeats 4000000 in
/-- C7, amended: when the configured bridge contract address is the zero address, the script
does not check it: the messenger is built with the zero address as `contracts.l1.L1StandardBridge`
and as the `l1Bridge` of both bridges; once the first balance line is printed the submission is
issued; and the submission succeeds, its transaction hash being printed, whenever the bridge
client resolves it. -/
theorem zero_bridge_unchecked (env : Env) (h : bridgeIsZero env) :
    (∀ o, Event.newCrossChainMessenger o ∈ (run env).trace →
        o.contracts.L1StandardBridge = zeroAddr ∧ o.bridges.Standard.l1Bridge = zeroAddr
        ∧ o.bridges.ETH.l1Bridge = zeroAddr)
    ∧ ((∃ x ∈ (run env).trace, isBalanceLine x = true) →
        ∃ v, Event.depositETH v ∈ (run env).trace)
    ∧ (∀ v hash, Event.depositETH v ∈ (run env).trace →
        env.depositETH v = .resolved hash →
        Event.log (.transactionHash hash) ∈ (run env).trace) := by
  obtain ⟨content, hread, hzero⟩ := h
  refine (run_prop env (fun r => (∀ o, Event.newCrossChainMessenger o ∈ r.trace →
        o.contracts.L1StandardBridge = zeroAddr ∧ o.bridges.Standard.l1Bridge = zeroAddr
        ∧ o.bridges.ETH.l1Bridge = zeroAddr)
    ∧ ((∃ x ∈ r.trace, isBalanceLine x = true) → ∃ v, Event.depositETH v ∈ r.trace)
    ∧ (∀ v hash, Event.depositETH v ∈ r.trace → env.depositETH v = .resolved hash →
        Event.log (.transactionHash hash) ∈ r.trace))).2 ?_
  simp only [script, loadModule, readAddressFromFile, thenCatch, main, setup, getSigners,
    depositETH, reportBalances, getBalance, handleK_bind, handleK_mbind, handleK_pure,
    handleK_emit, handleK_consoleLog, handleK_processExit, handleK_call, handleK_await,
    handleK_tryCatch, handleK_setMessenger, handleK_messenger, handleK_balanceRead_l1,
    handleK_balanceRead_l2, handleK_newDate, handleK_ite, St.init, List.nil_append,
    List.append_assoc, List.singleton_append, List.cons_append, Nat.zero_add, Nat.reduceAdd,
    hread, messengerOptions, contracts, bridges]
  repeat' split
  all_goals simp_all [isBalanceLine]

/-- C7, amended, at `zeroBridgeEnv`. -/
theorem zero_bridge_unchecked_witness :
    (∀ o, Event.newCrossChainMessenger o ∈ (run zeroBridgeEnv).trace →
        o.contracts.L1StandardBridge = zeroAddr ∧ o.bridges.Standard.l1Bridge = zeroAddr
        ∧ o.bridges.ETH.l1Bridge = zeroAddr)
    ∧ ∃ v, Event.depositETH v ∈ (run zeroBridgeEnv).trace :=
  ⟨(zero_bridge_unchecked zeroBridgeEnv ⟨_, rfl, by decide⟩).1,
    (zero_bridge_unchecked zeroBridgeEnv ⟨_, rfl, by decide⟩).2.1
      ⟨.log (.balances "9000000000" ""), by decide, rfl⟩⟩

/-- C8, refuted: in `stuckEnv` and in `idleEnv` the message never reaches RELAYED.  The relay
wait is the last thing either run does and it is issued without options, hence without a
deadline; neither run ends with exit status 1 or prints an error: the first never exits, the
second exits with status 0. -/
theorem relay_wait_never_ends :
    ((run stuckEnv).trace.getLast? = some (.waitForMessageStatus "0xhash" .RELAYED none)
      ∧ (run stuckEnv).exit = none ∧ ¬ ((run stuckEnv).exit = some 1))
    ∧ ((run idleEnv).trace.getLast? = some (.waitForMessageStatus "0xhash" .RELAYED none)
      ∧ (run idleEnv).exit = some 0 ∧ ¬ ((run idleEnv).exit = some 1)) := by
  refine ⟨⟨by decide, by decide, by decide⟩, ⟨by decide, by decide, by decide⟩⟩

set_option maxHeartbeats 4000000 in
/-- C8, amended: the relay wait is issued at most once, for RELAYED and without options, so no
deadline is passed to it.  If the wait never settles, the run does nothing after issuing it and
does not exit with status 1: it never exits while the pending wait keeps the process alive, and
exits with status 0 when nothing does.  If the wait is rejected, the run exits with status 1 and
only the `Error` line follows the wait. -/
theorem relay_wait_unbounded (env : Env) (hash : String) (status : MessageStatus)
    (opts : Option WaitOptions)
    (h : Event.waitForMessageStatus hash status opts ∈ (run env).trace) :
    status = .RELAYED ∧ opts = none
    ∧ ((run env).trace.filter isRelayWait).length = 1
    ∧ (∀ keepsAlive, env.waitForMessageStatus hash status opts = .pending keepsAlive →
        (run env).exit = (if keepsAlive then none else some 0)
        ∧ eventsAfter isRelayWait (run env).trace = [])
    ∧ (∀ e, env.waitForMessageStatus hash status opts = .rejected e →
        (run env).exit = some 1
        ∧ eventsAfter isRelayWait (run env).trace = [.log (.error e)]) := by
  revert h
  refine (run_prop env (fun r => Event.waitForMessageStatus hash status opts ∈ r.trace →
    status = .RELAYED ∧ opts = none
    ∧ (r.trace.filter isRelayWait).length = 1
    ∧ (∀ keepsAlive, env.waitForMessageStatus hash status opts = .pending keepsAlive →
        r.exit = (if keepsAlive then none else some 0)
        ∧ eventsAfter isRelayWait r.trace = [])
    ∧ (∀ e, env.waitForMessageStatus hash status opts = .rejected e →
        r.exit = some 1 ∧ eventsAfter isRelayWait r.trace = [.log (.error e)]))).2 ?_
  simp only [script, loadModule, readAddressFromFile, thenCatch, main, setup, getSigners,
    depositETH, reportBalances, getBalance, handleK_bind, handleK_mbind, handleK_pure,
    handleK_emit, handleK_consoleLog, handleK_processExit, handleK_call, handleK_await,
    handleK_tryCatch, handleK_setMessenger, handleK_messenger, handleK_balanceRead_l1,
    handleK_balanceRead_l2, handleK_newDate, handleK_ite, St.init, List.nil_append,
    List.append_assoc, List.singleton_append, List.cons_append, Nat.zero_add, Nat.reduceAdd]
  repeat' split
  all_goals first | (intro h; simp at h; done) | skip
  all_goals
    (intro h
     simp at h
     obtain ⟨rfl, rfl, rfl⟩ := h
     simp_all [eventsAfter, isRelayWait])

/-- C8, amended, at `stuckEnv`, which never exits, and at `idleEnv`, which exits with status 0. -/
theorem relay_wait_unbounded_witness :
    ((run stuckEnv).exit = none ∧ eventsAfter isRelayWait (run stuckEnv).trace = [])
    ∧ ((run idleEnv).exit = some 0 ∧ eventsAfter isRelayWait (run idleEnv).trace = []) :=
  ⟨(relay_wait_unbounded stuckEnv "0xhash" .RELAYED none (by decide)).2.2.2.1 true rfl,
    (relay_wait_unbounded idleEnv "0xhash" .RELAYED none (by decide)).2.2.2.1 false rfl⟩

/-- C9: `readAddressFromFile` ends the process, with status 1, exactly when the file cannot be
read; for a readable file, whatever it holds, it does not end the process and returns the content
with leading and trailing white space removed: the content is a run of white space, the result,
and a run of white space, and the result neither begins nor ends with white space; and trimming
the result again changes nothing. -/
theorem readAddressFromFile_spec (env : Env) (filename : String) (s : St) :
    ((∃ c, (readAddressFromFile env filename s).2 = .exit c)
        ↔ ∃ e, env.readFileSync filename = .error e)
    ∧ (∀ c, (readAddressFromFile env filename s).2 = .exit c → c = 1)
    ∧ (∀ content, env.readFileSync filename = .ok content →
        ∃ r pre post, (readAddressFromFile env filename s).2 = .ok r
          ∧ content.data = pre ++ r.data ++ post
          ∧ allWhiteSpace pre ∧ allWhiteSpace post
          ∧ (∀ c, r.data.head? = some c → isWhiteSpace c = false)
          ∧ (∀ c, r.data.getLast? = some c → isWhiteSpace c = false)
          ∧ trim r = r) := by
  rw [apply_eq_handleK (readAddressFromFile env filename) s]
  simp only [readAddressFromFile, handleK_bind, handleK_pure, handleK_emit, handleK_consoleLog,
    handleK_processExit, handleK_call, handleK_tryCatch]
  cases h : env.readFileSync filename with
  | error e => simp
  | ok content =>
    refine ⟨by simp, by simp, ?_⟩
    intro c hc
    cases hc
    obtain ⟨pre, post, h1, h2, h3, h4, h5⟩ := trimChars_spec content.data
    exact ⟨trim content, pre, post, rfl, h1, h2, h3, h4, h5, trim_idem content⟩

/-- C9 at the bridge address file of `zeroBridgeEnv`, which holds the zero address followed by a
newline: the address is returned without the newline. -/
theorem readAddressFromFile_spec_witness :
    (readAddressFromFile zeroBridgeEnv (path ++ "L1StandardBridgeProxy_address") St.init).2
        = .ok "0x0000000000000000000000000000000000000000"
    ∧ trim " \t0x0000000000000000000000000000000000000000\r\n"
        = "0x0000000000000000000000000000000000000000"
    ∧ ∃ r pre post,
        (readAddressFromFile zeroBridgeEnv (path ++ "L1StandardBridgeProxy_address") St.init).2
          = .ok r
        ∧ "0x0000000000000000000000000000000000000000\n".data = pre ++ r.data ++ post
        ∧ allWhiteSpace pre ∧ allWhiteSpace post
        ∧ (∀ c, r.data.head? = some c → isWhiteSpace c = false)
        ∧ (∀ c, r.data.getLast? = some c → isWhiteSpace c = false)
        ∧ trim r = r :=
  ⟨rfl, by decide,
    (readAddressFromFile_spec zeroBridgeEnv (path ++ "L1StandardBridgeProxy_address")
      St.init).2.2 "0x0000000000000000000000000000000000000000\n" rfl⟩

/-- C10, at balances below one Gwei: for the balances 0 and 999999999 wei the figure printed in
front of `Gwei` is the empty string, while the numeral of the balance in whole Gwei is `0`; so
the first report of a run whose L2 account is still empty reads `On L2: Gwei`. -/
theorem gweiFigure_below_one_gwei :
    gweiFigure 0 = "" ∧ gweiFigure 999999999 = ""
    ∧ Nat.repr (0 / 10 ^ 9) = "0" ∧ Nat.repr (999999999 / 10 ^ 9) = "0"
    ∧ Event.log (.balances "9000000000" "") ∈ (run sampleEnv).trace := by
  refine ⟨by decide, by decide, by decide, by decide, by decide⟩

end Bridge
